import Mathlib

/-!
Verification of the news scoring/filtering engine of this repository
(`filter-rules-loader`, the module in `src/unnamed/part_000`, together with
the backup implementation in `src/scripts/fetch-news.js`).

Shallow embedding conventions:
* JavaScript objects with possibly-absent fields become structures with
  `Option` fields (`none` models `undefined`).
* JavaScript numbers appearing in the rules are modelled as `Int` (all the
  configuration values in the repository are integers).
* The JavaScript defaulting idiom `x || d` on numbers is falsy-based: it
  yields `d` when `x` is `undefined` or `0`; this is modelled by `intOr`
  (and `jsOr` for the `minScore` field, whose value may be non-numeric).
* String containment `text.includes(s)` is modelled over the character
  lists of the strings; `toLowerCase` is modelled by per-character
  lowering (identity on the CJK characters used by the configuration).
* Coercing `undefined` to a string (as happens in
  `news.title + ' ' + news.summary` when a field is missing) yields the
  literal string "undefined", exactly as in JavaScript.
-/

/-- JavaScript string coercion of a possibly-undefined string value:
`undefined` coerces to the literal text "undefined" under `+`. -/
def jsStr : Option String → String
  | some s => s
  | none => "undefined"

/-- Model of JavaScript `String.prototype.toLowerCase` (per-character
lowering; identity on the CJK characters used in this repository). -/
def jsToLower (s : String) : String :=
  ⟨s.data.map Char.toLower⟩

/-- Does `sub` occur contiguously in `text` (as character lists)?  `sub`
must be a prefix of some suffix of `text`. -/
def charsContain (text sub : List Char) : Bool :=
  match text with
  | [] => sub.isEmpty
  | _ :: cs => sub.isPrefixOf text || charsContain cs sub

/-- Model of JavaScript `text.includes(sub)`: `sub` occurs contiguously in
`text`. -/
def includes (text sub : String) : Bool :=
  charsContain text.data sub.data

/-- Model of the JavaScript numeric defaulting idiom `w || d`: `undefined`
and `0` are falsy and give the default. -/
def intOr (w : Option Int) (d : Int) : Int :=
  match w with
  | some v => if v = 0 then d else v
  | none => d

/-- A JavaScript value stored in the `minScore` field of a configuration:
either a number or some non-numeric value (modelled by a string), as
distinguished by `typeof` in `validateRules`. -/
inductive JVal : Type where
  | num (n : Int)
  | str (s : String)
deriving DecidableEq

/-- Model of `v || d` on a possibly-undefined JavaScript value. -/
def jsOr (v : Option JVal) (d : JVal) : JVal :=
  match v with
  | some (.num n) => if n = 0 then d else .num n
  | some (.str s) => if s = "" then d else .str s
  | none => d

/-- JavaScript `ToNumber` on the fragment of values we model (`none`
plays the role of `NaN`). -/
def jsToNum : JVal → Option Int
  | .num n => some n
  | .str s => s.toInt?

/-- Model of the JavaScript comparison `a >= v` (any comparison against
`NaN` is false). -/
def jsGe (a : Int) (v : JVal) : Bool :=
  match jsToNum v with
  | some n => decide (n ≤ a)
  | none => false

/-- A `{values, weight}` group of the configuration, e.g.
`filterRules.cities`.  Either field may be absent. -/
structure KwGroup : Type where
  values : Option (List String)
  weight : Option Int
deriving DecidableEq

/-- A `{keywords, weight}` entry of `categoryKeywords.categories`. -/
structure CatConfig : Type where
  keywords : Option (List String)
  weight : Option Int
deriving DecidableEq

/-- The `categoryKeywords` group: an insertion-ordered mapping from
category name to its configuration (`Object.entries` order). -/
structure CategoryKeywords : Type where
  categories : List (String × CatConfig)
deriving DecidableEq

/-- The `filterRules` group of a configuration document. -/
structure FilterRules : Type where
  cities : Option KwGroup
  keywords : Option KwGroup
  excludeKeywords : Option KwGroup
  categoryKeywords : Option CategoryKeywords
deriving DecidableEq

/-- The `scoringRules` group of a configuration document. -/
structure ScoringRules : Type where
  minScore : Option JVal
deriving DecidableEq

/-- A rules configuration document; top-level groups may be absent. -/
structure Rules : Type where
  filterRules : Option FilterRules
  scoringRules : Option ScoringRules
deriving DecidableEq

/-- The empty object `{}` substituted by `rules.filterRules || {}`. -/
def emptyFilterRules : FilterRules :=
  { cities := none, keywords := none, excludeKeywords := none,
    categoryKeywords := none }

/-- A candidate news record `{title, summary}`; either field may be
absent (malformed record). -/
structure News : Type where
  title : Option String
  summary : Option String
deriving DecidableEq

/-- The text blob `news.title + ' ' + news.summary`. -/
def newsText (news : News) : String :=
  jsStr news.title ++ " " ++ jsStr news.summary

/-- `getDefaultRules` of the filter-rules loader (`src/unnamed/part_000`,
lines 52-75). -/
def getDefaultRules : Rules :=
  { filterRules := some
      { cities := some
          { values := some ["台北", "新北", "桃園", "台中", "台南", "高雄"],
            weight := some 10 },
        keywords := some
          { values := some
              ["秘書處", "秘書長", "市政府", "市長", "副市長",
               "政策", "會議", "視察", "國際交流", "簽署"],
            weight := some 5 },
        excludeKeywords := some
          { values := some ["娛樂", "運動", "明星", "八卦", "股市", "房市"],
            weight := some (-100) },
        categoryKeywords := none },
    scoringRules := some { minScore := some (.num 5) } }

/-- `calculateScore` of the filter-rules loader (`src/unnamed/part_000`,
lines 83-117): accumulate `weight || 10` per matching city and
`weight || 5` per matching keyword over the lowercased text blob, then
return `0` if any exclude keyword matches. -/
def calculateScore (news : News) (rules : Rules) : Int :=
  let text := jsToLower (newsText news)
  let filterRules := rules.filterRules.getD emptyFilterRules
  let score0 : Int :=
    match filterRules.cities with
    | some cg =>
      match cg.values with
      | some vs =>
        vs.foldl (fun s city =>
          if includes text (jsToLower city) then s + intOr cg.weight 10 else s) 0
      | none => 0
    | none => 0
  let score1 : Int :=
    match filterRules.keywords with
    | some kg =>
      match kg.values with
      | some vs =>
        vs.foldl (fun s kw =>
          if includes text (jsToLower kw) then s + intOr kg.weight 5 else s) score0
      | none => score0
    | none => score0
  let excluded : Bool :=
    match filterRules.excludeKeywords with
    | some eg =>
      match eg.values with
      | some vs => vs.any (fun kw => includes text (jsToLower kw))
      | none => false
    | none => false
  if excluded then 0 else score1

/-- `extractCategory` of the filter-rules loader (`src/unnamed/part_000`,
lines 125-140): first category (in mapping order) one of whose keywords
matches the lowercased text blob, else the sentinel. -/
def extractCategory (news : News) (rules : Rules) : String :=
  let text := jsToLower (newsText news)
  let categoryKeywords :=
    ((rules.filterRules.bind fun fr => fr.categoryKeywords).map
      fun ck => ck.categories).getD []
  match categoryKeywords.find? (fun entry =>
      match entry.2.keywords with
      | some kws => kws.any fun kw => includes text (jsToLower kw)
      | none => false) with
  | some entry => entry.1
  | none => "其他"

/-- The city vocabulary `rules.filterRules?.cities?.values || []`. -/
def cityValues (rules : Rules) : List String :=
  ((rules.filterRules.bind fun fr => fr.cities).bind fun g => g.values).getD []

/-- `extractCity` of the filter-rules loader (`src/unnamed/part_000`,
lines 148-159): first configured city occurring in the original-case text
blob, else the sentinel. -/
def extractCity (news : News) (rules : Rules) : String :=
  let text := newsText news
  match (cityValues rules).find? (fun city => includes text city) with
  | some city => city
  | none => "其他"

/-- A scored record: the input candidate spread together with the
computed `score`, `city` and `category` fields. -/
structure ScoredNews : Type where
  news : News
  score : Int
  city : String
  category : String
deriving DecidableEq

/-- The record produced for one candidate by the `map` step of
`filterNews`. -/
def scoreNews (rules : Rules) (news : News) : ScoredNews :=
  { news := news,
    score := calculateScore news rules,
    city := extractCity news rules,
    category := extractCategory news rules }

/-- One insertion step of the stable descending-by-score sort: the new
element goes before the first element whose score is not larger.  Used to
model `Array.prototype.sort((a, b) => b.score - a.score)`, which
ECMAScript requires to be a stable sort. -/
def insertDesc (a : ScoredNews) : List ScoredNews → List ScoredNews
  | [] => [a]
  | b :: bs => if a.score < b.score then b :: insertDesc a bs else a :: b :: bs

/-- Stable descending-by-score sort, modelling
`.sort((a, b) => b.score - a.score)`.  Stability plus sortedness by the
comparator determine the ECMAScript result uniquely, so any stable
implementation is extensionally the one in the source. -/
def sortByScoreDesc : List ScoredNews → List ScoredNews
  | [] => []
  | a :: as => insertDesc a (sortByScoreDesc as)

/-- `filterNews` of the filter-rules loader (`src/unnamed/part_000`,
lines 167-180): map to scored records, keep `score >= minScore || 5`,
sort descending by score (stably) and keep the first 50. -/
def filterNews (allNews : List News) (rules : Rules) : List ScoredNews :=
  let minScore := jsOr (rules.scoringRules.bind fun sr => sr.minScore) (.num 5)
  (sortByScoreDesc
    ((allNews.map (scoreNews rules)).filter fun n => jsGe n.score minScore)).take 50

/-- The record returned by `validateRules`. -/
structure ValidationResult : Type where
  valid : Bool
  errors : List String
deriving DecidableEq

/-- `validateRules` of the filter-rules loader (`src/unnamed/part_000`,
lines 187-218).  The check `typeof rules.scoringRules.minScore` does not
use optional chaining, so when `scoringRules` is absent the function
throws a `TypeError`; the throw is modelled by `Except.error ()`. -/
def validateRules (rules : Rules) : Except Unit ValidationResult :=
  let e1 := if rules.filterRules.isNone then ["缺少 filterRules 欄位"] else []
  let e2 := if rules.scoringRules.isNone then ["缺少 scoringRules 欄位"] else []
  let e3 :=
    match (rules.filterRules.bind fun fr => fr.cities).bind fun g => g.values with
    | none => ["cities 陣列為空"]
    | some vs => if vs.length = 0 then ["cities 陣列為空"] else []
  let e4 :=
    match (rules.filterRules.bind fun fr => fr.keywords).bind fun g => g.values with
    | none => ["keywords 陣列為空"]
    | some vs => if vs.length = 0 then ["keywords 陣列為空"] else []
  match rules.scoringRules with
  | none => .error ()
  | some sr =>
    let e5 :=
      match sr.minScore with
      | some (.num _) => []
      | _ => ["minScore 必須是數字"]
    let errors := e1 ++ e2 ++ e3 ++ e4 ++ e5
    .ok { valid := errors.isEmpty, errors := errors }

namespace FetchNews

/-- The backup `calculateScore` of `src/scripts/fetch-news.js`
(lines 188-227), i.e. the branch executed when the `filter-rules-loader`
module is unavailable.  Its body repeats the loader's implementation. -/
def calculateScore (news : News) (rules : Rules) : Int :=
  let text := jsToLower (newsText news)
  let filterRules := rules.filterRules.getD emptyFilterRules
  let score0 : Int :=
    match filterRules.cities with
    | some cg =>
      match cg.values with
      | some vs =>
        vs.foldl (fun s city =>
          if includes text (jsToLower city) then s + intOr cg.weight 10 else s) 0
      | none => 0
    | none => 0
  let score1 : Int :=
    match filterRules.keywords with
    | some kg =>
      match kg.values with
      | some vs =>
        vs.foldl (fun s kw =>
          if includes text (jsToLower kw) then s + intOr kg.weight 5 else s) score0
      | none => score0
    | none => score0
  let excluded : Bool :=
    match filterRules.excludeKeywords with
    | some eg =>
      match eg.values with
      | some vs => vs.any (fun kw => includes text (jsToLower kw))
      | none => false
    | none => false
  if excluded then 0 else score1

end FetchNews

/-- The example candidate from the specification. -/
def exampleNews : News :=
  { title := some "台北市政府秘書長視察活動",
    summary := some "市政府舉辦國際交流簽署儀式" }

/-! Helper lemmas about the stable descending insertion sort. -/

lemma mem_insertDesc {a x : ScoredNews} {l : List ScoredNews} :
    x ∈ insertDesc a l ↔ x = a ∨ x ∈ l := by
  induction l with
  | nil => simp [insertDesc]
  | cons b bs ih =>
    simp only [insertDesc]
    split
    · simp only [List.mem_cons, ih]
      tauto
    · simp only [List.mem_cons]

lemma length_insertDesc (a : ScoredNews) (l : List ScoredNews) :
    (insertDesc a l).length = l.length + 1 := by
  induction l with
  | nil => rfl
  | cons b bs ih =>
    simp only [insertDesc]
    split
    · simp only [List.length_cons, ih]
    · simp [List.length_cons]

lemma mem_sortByScoreDesc {x : ScoredNews} {l : List ScoredNews} :
    x ∈ sortByScoreDesc l ↔ x ∈ l := by
  induction l with
  | nil => simp [sortByScoreDesc]
  | cons a as ih =>
    simp only [sortByScoreDesc, mem_insertDesc, ih, List.mem_cons]

lemma length_sortByScoreDesc (l : List ScoredNews) :
    (sortByScoreDesc l).length = l.length := by
  induction l with
  | nil => rfl
  | cons a as ih =>
    simp only [sortByScoreDesc, length_insertDesc, ih, List.length_cons]

lemma pairwise_insertDesc {a : ScoredNews} {l : List ScoredNews}
    (h : l.Pairwise fun x y => y.score ≤ x.score) :
    (insertDesc a l).Pairwise fun x y => y.score ≤ x.score := by
  induction l with
  | nil => simp [insertDesc]
  | cons b bs ih =>
    rw [List.pairwise_cons] at h
    simp only [insertDesc]
    split
    · rename_i hab
      rw [List.pairwise_cons]
      refine ⟨?_, ih h.2⟩
      intro x hx
      rcases mem_insertDesc.mp hx with rfl | hx
      · exact le_of_lt hab
      · exact h.1 x hx
    · rename_i hab
      push_neg at hab
      rw [List.pairwise_cons]
      refine ⟨?_, List.pairwise_cons.mpr h⟩
      intro x hx
      rcases List.mem_cons.mp hx with rfl | hx
      · exact hab
      · exact le_trans (h.1 x hx) hab

lemma pairwise_sortByScoreDesc (l : List ScoredNews) :
    (sortByScoreDesc l).Pairwise fun x y => y.score ≤ x.score := by
  induction l with
  | nil => simp [sortByScoreDesc]
  | cons a as ih => exact pairwise_insertDesc ih

lemma filter_score_insertDesc (a : ScoredNews) (l : List ScoredNews) (s : Int) :
    (insertDesc a l).filter (fun x => decide (x.score = s)) =
      if a.score = s then a :: l.filter (fun x => decide (x.score = s))
      else l.filter (fun x => decide (x.score = s)) := by
  induction l with
  | nil =>
    simp only [insertDesc, List.filter]
    split <;> simp_all
  | cons b bs ih =>
    simp only [insertDesc]
    split
    · rename_i hab
      rw [List.filter_cons, ih]
      by_cases has : a.score = s
      · have hbs : ¬b.score = s := by
          intro hb
          rw [has] at hab
          rw [hb] at hab
          exact lt_irrefl s hab
        simp [has, hbs, List.filter_cons]
      · simp [has, List.filter_cons]
    · simp [List.filter_cons]

lemma filter_score_sortByScoreDesc (l : List ScoredNews) (s : Int) :
    (sortByScoreDesc l).filter (fun x => decide (x.score = s)) =
      l.filter (fun x => decide (x.score = s)) := by
  induction l with
  | nil => rfl
  | cons a as ih =>
    simp only [sortByScoreDesc, filter_score_insertDesc, ih, List.filter_cons]
    split <;> simp_all

lemma find?_first {α : Type} {p : α → Bool} {l : List α} {b : α}
    (h : l.find? p = some b) :
    ∃ l₁ l₂, l = l₁ ++ b :: l₂ ∧ ∀ a ∈ l₁, p a = false := by
  induction l with
  | nil => simp [List.find?] at h
  | cons c cs ih =>
    by_cases hc : p c = true
    · rw [List.find?_cons_of_pos _ hc] at h
      cases h
      exact ⟨[], cs, rfl, by simp⟩
    · rw [Bool.not_eq_true] at hc
      rw [List.find?_cons_of_neg _ (by simp [hc])] at h
      obtain ⟨l₁, l₂, heq, hl₁⟩ := ih h
      refine ⟨c :: l₁, l₂, by rw [heq, List.cons_append], ?_⟩
      intro a ha
      rcases List.mem_cons.mp ha with rfl | ha
      · exact hc
      · exact hl₁ a ha

/-! Claim theorems. -/

/-- C1: for every rule set with an exclude-keywords group whose values
list contains a keyword occurring (lowercased) in the lowercased
title-plus-summary text of a candidate, `calculateScore` returns exactly
0, regardless of the city and inclusion-keyword accumulation. -/
theorem calculateScore_excluded_zero (news : News) (rules : Rules)
    (fr : FilterRules) (eg : KwGroup) (vs : List String) (kw : String)
    (hfr : rules.filterRules = some fr)
    (heg : fr.excludeKeywords = some eg)
    (hvs : eg.values = some vs)
    (hkw : kw ∈ vs)
    (hmatch : includes (jsToLower (newsText news)) (jsToLower kw) = true) :
    calculateScore news rules = 0 := by
  have hany : (vs.any fun k => includes (jsToLower (newsText news)) (jsToLower k)) = true :=
    List.any_eq_true.mpr ⟨kw, hkw, hmatch⟩
  simp [calculateScore, hfr, heg, hvs, hany]

/-- Witness for C1: a candidate mentioning the default exclude keyword
"股市" scores 0 under the default rules. -/
theorem calculateScore_excluded_zero_witness :
    calculateScore { title := some "台北股市新聞", summary := some "" }
      getDefaultRules = 0 :=
  calculateScore_excluded_zero
    { title := some "台北股市新聞", summary := some "" } getDefaultRules
    _ _ _ "股市" rfl rfl rfl (by decide) (by decide)

/-- C2 (failing case): `validateRules` throws a `TypeError` (modelled by
`Except.error ()`) on a structurally incomplete document whose
`scoringRules` group is absent, because the `typeof
rules.scoringRules.minScore` check dereferences `undefined` without
optional chaining — contradicting the claim that it never throws. -/
theorem validateRules_throws_without_scoringRules :
    validateRules { filterRules := none, scoringRules := none } =
      Except.error () := rfl

/-- The rule set exhibiting the C3 divergence: a single inclusion keyword
"undefined" with weight 5. -/
def undefinedKeywordRules : Rules :=
  { filterRules := some
      { cities := none,
        keywords := some { values := some ["undefined"], weight := some 5 },
        excludeKeywords := none,
        categoryKeywords := none },
    scoringRules := none }

/-- C3 (failing case): a candidate with a missing `title` is not scored
as if the field were the empty string: JavaScript coerces the missing
field to the text "undefined" inside the blob, so the keyword
"undefined" matches and the candidate scores 5, whereas the same
candidate with `title = ""` scores 0. -/
theorem calculateScore_missing_title_diverges :
    calculateScore { title := none, summary := some "" }
        undefinedKeywordRules = 5 ∧
      calculateScore { title := some "", summary := some "" }
        undefinedKeywordRules = 0 :=
  ⟨by decide, by decide⟩

/-- C4: when `scoringRules.minScore` is a number `m`, the output of
`filterNews` is ordered non-increasingly by score and every output score
is at least `m` (when `m = 0` the falsy default raises the effective
threshold to 5, which still dominates 0). -/
theorem filterNews_sorted_minScore (L : List News) (rules : Rules) (m : Int)
    (h : (rules.scoringRules.bind fun sr => sr.minScore) = some (JVal.num m)) :
    ((filterNews L rules).Pairwise fun a b => b.score ≤ a.score) ∧
      ∀ x ∈ filterNews L rules, m ≤ x.score := by
  have hfn : filterNews L rules =
      (sortByScoreDesc ((L.map (scoreNews rules)).filter fun n =>
        jsGe n.score (jsOr (some (JVal.num m)) (.num 5)))).take 50 := by
    simp [filterNews, h]
  rw [hfn]
  constructor
  · exact List.Pairwise.sublist (List.take_sublist 50 _) (pairwise_sortByScoreDesc _)
  · intro x hx
    have hx2 := (List.take_sublist 50 _).subset hx
    have hx3 := mem_sortByScoreDesc.mp hx2
    have hpass := (List.mem_filter.mp hx3).2
    by_cases hm : m = 0
    · subst hm
      simp [jsOr, jsGe, jsToNum] at hpass
      omega
    · simp [jsOr, jsGe, jsToNum, hm] at hpass
      exact hpass

/-- Witness for C4 at the default rules on a one-candidate list. -/
theorem filterNews_sorted_minScore_witness :
    ((filterNews [exampleNews] getDefaultRules).Pairwise
        fun a b => b.score ≤ a.score) ∧
      ∀ x ∈ filterNews [exampleNews] getDefaultRules, (5 : Int) ≤ x.score :=
  filterNews_sorted_minScore [exampleNews] getDefaultRules 5 rfl

/-- C5: the output of `filterNews` has at most 50 records and no more
records than the input; the empty input yields the empty output. -/
theorem filterNews_length_bound (L : List News) (rules : Rules) :
    (filterNews L rules).length ≤ 50 ∧
      (filterNews L rules).length ≤ L.length ∧
      filterNews [] rules = [] := by
  refine ⟨?_, ?_, rfl⟩
  · simp only [filterNews, List.length_take]
    exact min_le_left _ _
  · simp only [filterNews, List.length_take]
    refine le_trans (min_le_right _ _) ?_
    rw [length_sortByScoreDesc]
    exact le_trans (List.length_filter_le _ _) (le_of_eq (List.length_map _ _))

/-- C6: `filterNews` is stable on ties — for every score value `s`, the
output records of score `s` form (in order) a subsequence of the scored
input records of score `s`, so two equal-scored candidates appearing in
the output keep their input relative order. -/
theorem filterNews_stable (L : List News) (rules : Rules) (s : Int) :
    ((filterNews L rules).filter fun x => decide (x.score = s)).Sublist
      ((L.map (scoreNews rules)).filter fun x => decide (x.score = s)) := by
  have key : ∀ F S : List ScoredNews, F.Sublist S →
      (((sortByScoreDesc F).take 50).filter fun x => decide (x.score = s)).Sublist
        (S.filter fun x => decide (x.score = s)) := by
    intro F S hFS
    have h1 := (List.take_sublist 50 (sortByScoreDesc F)).filter
      fun x => decide (x.score = s)
    rw [filter_score_sortByScoreDesc] at h1
    exact h1.trans (hFS.filter _)
  simpa [filterNews] using key _ _ (List.filter_sublist _)

/-- C7: `extractCity` always returns a configured city or the sentinel
"其他"; when some configured city occurs in the original-case text it
returns the first such city in configured order, and when none occurs it
returns the sentinel. -/
theorem extractCity_first_match (news : News) (rules : Rules) :
    (extractCity news rules ∈ cityValues rules ∨ extractCity news rules = "其他") ∧
      ((∃ c ∈ cityValues rules, includes (newsText news) c = true) →
        ∃ l₁ l₂, cityValues rules = l₁ ++ extractCity news rules :: l₂ ∧
          includes (newsText news) (extractCity news rules) = true ∧
          ∀ c ∈ l₁, includes (newsText news) c = false) ∧
      ((∀ c ∈ cityValues rules, includes (newsText news) c = false) →
        extractCity news rules = "其他") := by
  rcases hfind : (cityValues rules).find? fun city => includes (newsText news) city
    with _ | city
  · refine ⟨Or.inr (by simp [extractCity, hfind]), ?_, fun _ => by simp [extractCity, hfind]⟩
    rintro ⟨c, hc, hinc⟩
    have := List.find?_eq_none.mp hfind c hc
    simp [hinc] at this
  · have hmem := List.mem_of_find?_eq_some hfind
    have hpred := List.find?_some hfind
    have hcity : extractCity news rules = city := by simp [extractCity, hfind]
    refine ⟨Or.inl (hcity ▸ hmem), ?_, ?_⟩
    · intro _
      obtain ⟨l₁, l₂, heq, hl₁⟩ := find?_first hfind
      exact ⟨l₁, l₂, hcity ▸ heq, hcity ▸ hpred, hl₁⟩
    · intro hall
      have h2 := hall city hmem
      rw [h2] at hpred
      exact Bool.noConfusion hpred

/-- Witness for C7: under the default rules the example candidate's city
is the first configured match, "台北". -/
theorem extractCity_first_match_witness :
    ∃ l₁ l₂, cityValues getDefaultRules =
        l₁ ++ extractCity exampleNews getDefaultRules :: l₂ ∧
      includes (newsText exampleNews) (extractCity exampleNews getDefaultRules) = true ∧
      ∀ c ∈ l₁, includes (newsText exampleNews) c = false :=
  (extractCity_first_match exampleNews getDefaultRules).2.1
    ⟨"台北", by decide, by decide⟩

/-- C8: with the built-in default rules the example candidate scores
exactly 35 (one city match worth 10 plus five keyword matches worth 25),
passes the minScore-5 filter, and its extracted city is "台北". -/
theorem defaultRules_example :
    calculateScore exampleNews getDefaultRules = 35 ∧
      filterNews [exampleNews] getDefaultRules =
        [{ news := exampleNews, score := 35, city := "台北", category := "其他" }] ∧
      extractCity exampleNews getDefaultRules = "台北" :=
  ⟨by decide, by decide, by decide⟩

/-- C9: a configured value of 0 is treated like an absent value by the
falsy defaulting: with both weights 0, `calculateScore` behaves exactly
as with the default weights 10 and 5, and with `minScore` 0, `filterNews`
behaves exactly as with `minScore` 5. -/
theorem zero_config_uses_defaults (news : News) (L : List News)
    (cvs kvs : List String) (eg : Option KwGroup) (ck : Option CategoryKeywords) :
    calculateScore news
        { filterRules := some
            { cities := some { values := some cvs, weight := some 0 },
              keywords := some { values := some kvs, weight := some 0 },
              excludeKeywords := eg, categoryKeywords := ck },
          scoringRules := some { minScore := some (JVal.num 0) } } =
      calculateScore news
        { filterRules := some
            { cities := some { values := some cvs, weight := some 10 },
              keywords := some { values := some kvs, weight := some 5 },
              excludeKeywords := eg, categoryKeywords := ck },
          scoringRules := some { minScore := some (JVal.num 0) } } ∧
    filterNews L
        { filterRules := some
            { cities := some { values := some cvs, weight := some 0 },
              keywords := some { values := some kvs, weight := some 0 },
              excludeKeywords := eg, categoryKeywords := ck },
          scoringRules := some { minScore := some (JVal.num 0) } } =
      filterNews L
        { filterRules := some
            { cities := some { values := some cvs, weight := some 0 },
              keywords := some { values := some kvs, weight := some 0 },
              excludeKeywords := eg, categoryKeywords := ck },
          scoringRules := some { minScore := some (JVal.num 5) } } :=
  ⟨rfl, rfl⟩

/-- C10: the backup scorer of `fetch-news.js` agrees with the loader's
scorer on every candidate and rule set. -/
theorem fetchNews_backup_calculateScore_eq (news : News) (rules : Rules) :
    FetchNews.calculateScore news rules = calculateScore news rules := rfl
